import Mathlib

/-!
Shallow embedding of `frame/election-provider-support/src/lib.rs`
(bound primitives, index-assignment compression, the election-provider
desired-targets check, and the sorted-list provider contract), together
with theorems settling the specification claims about them.
-/

namespace ElectionProviderSupport

/-- The constant `u32::MAX`, used by `DataProviderBounds::max` as the default cap. -/
def u32MAX : Nat := 2 ^ 32 - 1

/-- Count bound of data provider bounds (`CountBound(pub u32)`). -/
structure CountBound where
  val : Nat
deriving DecidableEq, Repr

/-- Zero (`Zero::zero()`) for `CountBound`. -/
def CountBound.zero : CountBound := ⟨0⟩

/-- Addition (`Add for CountBound`): saturating addition on the `u32` payload. -/
def CountBound.add (a b : CountBound) : CountBound :=
  ⟨min (a.val + b.val) u32MAX⟩

/-- Rust `Ord::clamp` over the derived order on `CountBound` (callers always
pass `lo ≤ hi`). -/
def CountBound.clamp (self lo hi : CountBound) : CountBound :=
  ⟨max lo.val (min self.val hi.val)⟩

/-- Size bound of data provider bounds (`SizeBound(pub u32)`). -/
structure SizeBound where
  val : Nat
deriving DecidableEq, Repr

/-- Zero (`Zero::zero()`) for `SizeBound`. -/
def SizeBound.zero : SizeBound := ⟨0⟩

/-- Addition (`Add for SizeBound`): saturating addition on the `u32` payload. -/
def SizeBound.add (a b : SizeBound) : SizeBound :=
  ⟨min (a.val + b.val) u32MAX⟩

/-- Rust `Ord::clamp` over the derived order on `SizeBound`. -/
def SizeBound.clamp (self lo hi : SizeBound) : SizeBound :=
  ⟨max lo.val (min self.val hi.val)⟩

/-- The struct `DataProviderBounds { count: Option<CountBound>, size: Option<SizeBound> }`. -/
structure DataProviderBounds where
  count : Option CountBound
  size : Option SizeBound
deriving DecidableEq, Repr

/-- Constructor `DataProviderBounds::new_unbounded()`. -/
def DataProviderBounds.new_unbounded : DataProviderBounds :=
  { count := none, size := none }

/-- Method `DataProviderBounds::count_exhausted`:
`self.count.map_or(false, |count| given_count > count)`. -/
def DataProviderBounds.count_exhausted
    (self : DataProviderBounds) (given_count : CountBound) : Bool :=
  match self.count with
  | none => false
  | some count => decide (count.val < given_count.val)

/-- Method `DataProviderBounds::size_exhausted`:
`self.size.map_or(false, |size| given_size > size)`. -/
def DataProviderBounds.size_exhausted
    (self : DataProviderBounds) (given_size : SizeBound) : Bool :=
  match self.size with
  | none => false
  | some size => decide (size.val < given_size.val)

/-- Method `DataProviderBounds::exhausted`: OR of the two checks, substituting zero
for an absent argument. -/
def DataProviderBounds.exhausted (self : DataProviderBounds)
    (given_size : Option SizeBound) (given_count : Option CountBound) : Bool :=
  self.count_exhausted (given_count.getD CountBound.zero) ||
    self.size_exhausted (given_size.getD SizeBound.zero)

/-- Method `DataProviderBounds::max`: per field, `self.field.map(|c|
c.clamp(zero, bounds.field.unwrap_or(MAX))).or(bounds.field)`. -/
def DataProviderBounds.max (self bounds : DataProviderBounds) : DataProviderBounds where
  count :=
    match self.count with
    | some c => some (c.clamp CountBound.zero (bounds.count.getD ⟨u32MAX⟩))
    | none => bounds.count
  size :=
    match self.size with
    | some c => some (c.clamp SizeBound.zero (bounds.size.getD ⟨u32MAX⟩))
    | none => bounds.size

/-- The struct `ElectionBounds { voters, targets }`. -/
structure ElectionBounds where
  voters : DataProviderBounds
  targets : DataProviderBounds
deriving DecidableEq, Repr

/-- The struct `ElectionBoundsBuilder { voters: Option<..>, targets: Option<..> }`. -/
structure ElectionBoundsBuilder where
  voters : Option DataProviderBounds
  targets : Option DataProviderBounds
deriving DecidableEq, Repr

/-- Constructor `ElectionBoundsBuilder::new()`. -/
def ElectionBoundsBuilder.new : ElectionBoundsBuilder :=
  { voters := none, targets := none }

/-- Method `ElectionBoundsBuilder::from(bounds)` (Lean cannot use the keyword `from`
as a name). -/
def ElectionBoundsBuilder.fromBounds (bounds : ElectionBounds) : ElectionBoundsBuilder :=
  { voters := some bounds.voters, targets := some bounds.targets }

/-- Method `ElectionBoundsBuilder::build()`: unset dimensions default to the
`Default`-derived `DataProviderBounds`, i.e. fully unbounded. -/
def ElectionBoundsBuilder.build (self : ElectionBoundsBuilder) : ElectionBounds where
  voters := self.voters.getD { count := none, size := none }
  targets := self.targets.getD { count := none, size := none }

/-- Comparison of optional count bounds reading `none` as unbounded: the
left-hand side is at most the right-hand side. -/
def count_le_opt (x y : Option CountBound) : Bool :=
  match x, y with
  | _, none => true
  | some v, some w => decide (v.val ≤ w.val)
  | none, some _ => false

/-- Comparison of optional size bounds reading `none` as unbounded. -/
def size_le_opt (x y : Option SizeBound) : Bool :=
  match x, y with
  | _, none => true
  | some v, some w => decide (v.val ≤ w.val)
  | none, some _ => false

/-- Modelled from the spec: the `sp_npos_elections::Error` variant surfaced by
index compression, the distinguished "invalid index" error (only the variant
this crate produces is modelled; the enum lives in the external apportionment
engine). -/
inductive Error where
  | SolutionInvalidIndex
deriving DecidableEq, Repr

/-- Extension method `__OrInvalidIndex::or_invalid_index`: `self.ok_or(Error::SolutionInvalidIndex)`. -/
def or_invalid_index {T : Type} : Option T → Except Error T
  | some t => .ok t
  | none => .error .SolutionInvalidIndex

/-- Modelled from the spec: `sp_npos_elections::Assignment` — a voter's stake
distributed across chosen targets as proportions (glossary entry; the struct
lives in the external apportionment engine). -/
structure Assignment (AccountId P : Type) where
  who : AccountId
  distribution : List (AccountId × P)
deriving DecidableEq, Repr

/-- The struct `IndexAssignment { who: VoterIndex, distribution: Vec<(TargetIndex, P)> }`. -/
structure IndexAssignment (VoterIndex TargetIndex P : Type) where
  who : VoterIndex
  distribution : List (TargetIndex × P)
deriving DecidableEq, Repr

/-- Helper embedding the distribution conversion of `IndexAssignment::new`:
`.iter().map(|(target, proportion)| Some((target_index(target)?, *proportion)))
.collect::<Option<Vec<_>>>()`, which short-circuits to `None` at the first
failed target lookup. -/
def collectTargets {AccountId TargetIndex P : Type}
    (target_index : AccountId → Option TargetIndex) :
    List (AccountId × P) → Option (List (TargetIndex × P))
  | [] => some []
  | tp :: rest =>
      match target_index tp.1 with
      | none => none
      | some i => (collectTargets target_index rest).map fun ds => (i, tp.2) :: ds

/-- Constructor `IndexAssignment::new`: the voter id goes through `voter_index`, each
distribution entry through `target_index`, any lookup miss aborting with the
invalid-index error; the two `?` operators desugar to early return on error. -/
def IndexAssignment.new {AccountId VoterIndex TargetIndex P : Type}
    (assignment : Assignment AccountId P)
    (voter_index : AccountId → Option VoterIndex)
    (target_index : AccountId → Option TargetIndex) :
    Except Error (IndexAssignment VoterIndex TargetIndex P) :=
  match or_invalid_index (voter_index assignment.who) with
  | .error e => .error e
  | .ok who =>
      match or_invalid_index (collectTargets target_index assignment.distribution) with
      | .error e => .error e
      | .ok distribution => .ok { who := who, distribution := distribution }

/-- Method `ElectionProviderBase::desired_targets_checked`, with the associated
`MaxWinners::get()` and the `DataProvider::desired_targets()` outcome passed
explicitly: `desired_targets().and_then(...)`. -/
def desired_targets_checked (maxWinners : Nat) (desired : Except String Nat) :
    Except String Nat :=
  desired.bind fun desired_targets =>
    if desired_targets ≤ maxWinners then .ok desired_targets
    else .error "desired_targets must not be greater than MaxWinners."

/-! ### Sorted list provider

`SortedListProvider` is a trait: `on_increase` and `on_decrease` have default
bodies in the source, while the primitive hooks (`on_insert`, `on_update`,
`on_remove`, `get_score`, `count`, `iter`, `contains`) are only declared.  The
primitives are modelled from the spec below; the state is an explicit
association list ordered descending by score. -/

/-- Score arithmetic: the spec's `Score` is a bounded saturating zero-having
ordinal; it is modelled as `Nat` saturating at `2^64 - 1`. -/
def scoreMAX : Nat := 2 ^ 64 - 1

/-- Saturating addition (`Saturating::saturating_add`) on scores. -/
def saturating_add (a b : Nat) : Nat := min (a + b) scoreMAX

/-- Saturating subtraction (`Saturating::saturating_sub`) on scores (`Nat` subtraction already
saturates at zero). -/
def saturating_sub (a b : Nat) : Nat := a - b

/-- The sorted-list state: members with their scores, descending by score. -/
abbrev ListState := List (Nat × Nat)

/-- Modelled from the spec: `SortedListProvider::contains` — membership test. -/
def contains (l : ListState) (id : Nat) : Bool :=
  l.any fun p => p.1 == id

/-- Modelled from the spec: `SortedListProvider::get_score` — current score,
or an error if the id is absent. -/
def get_score (l : ListState) (id : Nat) : Except String Nat :=
  match l.find? (fun p => p.1 == id) with
  | some p => .ok p.2
  | none => .error "id not present in the list"

/-- Insert a member keeping the list descending by score. -/
def insertSorted (l : ListState) (id score : Nat) : ListState :=
  match l with
  | [] => [(id, score)]
  | p :: rest =>
      if p.2 < score then (id, score) :: p :: rest
      else p :: insertSorted rest id score

/-- Modelled from the spec: `SortedListProvider::on_insert` — fails on a
duplicate id, otherwise inserts in ranked position. -/
def on_insert (l : ListState) (id score : Nat) : Except String ListState :=
  if contains l id then .error "duplicate item being inserted"
  else .ok (insertSorted l id score)

/-- Modelled from the spec: `SortedListProvider::on_remove` — deletes, failing
if the id is absent. -/
def on_remove (l : ListState) (id : Nat) : Except String ListState :=
  if contains l id then .ok (l.filter fun p => p.1 != id)
  else .error "id not present in the list"

/-- Modelled from the spec: `SortedListProvider::on_update` — repositions an
existing member with its new score, failing if the id is absent. -/
def on_update (l : ListState) (id score : Nat) : Except String ListState :=
  if contains l id then .ok (insertSorted (l.filter fun p => p.1 != id) id score)
  else .error "id not present in the list"

/-- Method `SortedListProvider::on_increase` (default body in the source):
`get_score`, saturating add, `on_update`. -/
def on_increase (l : ListState) (id additional : Nat) : Except String ListState :=
  match get_score l id with
  | .error e => .error e
  | .ok old_score => on_update l id (saturating_add old_score additional)

/-- Method `SortedListProvider::on_decrease` (default body in the source):
`get_score`, saturating sub, then `on_remove` if the new score is zero and
`on_update` otherwise. -/
def on_decrease (l : ListState) (id decreased : Nat) : Except String ListState :=
  match get_score l id with
  | .error e => .error e
  | .ok old_score =>
      if saturating_sub old_score decreased = 0 then on_remove l id
      else on_update l id (saturating_sub old_score decreased)

/-- Modelled from the spec: `SortedListProvider::count` — cardinality. -/
def count (l : ListState) : Nat := l.length

/-- Modelled from the spec: `SortedListProvider::iter` — all members,
descending by score (list order of the state). -/
def iter (l : ListState) : List Nat := l.map Prod.fst

/-- One sorted-list mutation, for stating invariants over operation
sequences. -/
inductive Op where
  | insert (id score : Nat)
  | update (id score : Nat)
  | increase (id delta : Nat)
  | decrease (id delta : Nat)
  | remove (id : Nat)
deriving DecidableEq, Repr

/-- A failed operation leaves the state untouched (errors are reported
synchronously, the list never auto-corrects). -/
def orSelf (l : ListState) (r : Except String ListState) : ListState :=
  match r with
  | .ok l' => l'
  | .error _ => l

/-- Apply one operation to the state; on error the state is unchanged. -/
def applyOp (l : ListState) (op : Op) : ListState :=
  match op with
  | .insert id score => orSelf l (on_insert l id score)
  | .update id score => orSelf l (on_update l id score)
  | .increase id delta => orSelf l (on_increase l id delta)
  | .decrease id delta => orSelf l (on_decrease l id delta)
  | .remove id => orSelf l (on_remove l id)

/-- Apply a sequence of operations starting from a state. -/
def applyOps (l : ListState) (ops : List Op) : ListState :=
  ops.foldl applyOp l

/-- An operation that never introduces a zero score by itself: inserts and
updates carry a nonzero score (increase, decrease and remove are always
fine). -/
def goodOp : Op → Bool
  | .insert _ score => score != 0
  | .update _ score => score != 0
  | _ => true

/-! ### Claim theorems -/

/-- Claim C1: `exhausted(given_size, given_count)` substitutes `CountBound(0)`
for an absent `given_count` and `SizeBound(0)` for an absent `given_size` and
returns the logical OR of `count_exhausted` and `size_exhausted` on the
substituted values; in particular `exhausted(None, None)` is false for every
bounds value, even when a count bound or size bound is configured. -/
theorem exhausted_or_and_absent_defaults_to_zero (b : DataProviderBounds)
    (gs : Option SizeBound) (gc : Option CountBound) :
    b.exhausted gs gc =
      (b.count_exhausted (gc.getD CountBound.zero) ||
        b.size_exhausted (gs.getD SizeBound.zero)) ∧
    b.exhausted none none = false := by
  refine ⟨rfl, ?_⟩
  obtain ⟨c, s⟩ := b
  cases c <;> cases s <;>
    simp [DataProviderBounds.exhausted, DataProviderBounds.count_exhausted,
      DataProviderBounds.size_exhausted, CountBound.zero, SizeBound.zero]

/-- Claim C8: with `count = Some(n)`, `count_exhausted(CountBound(k))` is true
iff `k > n`; with `count = None` it is always false; `size_exhausted` behaves
symmetrically on the size field. -/
theorem count_and_size_exhausted_iff (n k : Nat)
    (os : Option SizeBound) (oc : Option CountBound) :
    (DataProviderBounds.mk (some ⟨n⟩) os).count_exhausted ⟨k⟩ = decide (k > n) ∧
    (DataProviderBounds.mk none os).count_exhausted ⟨k⟩ = false ∧
    (DataProviderBounds.mk oc (some ⟨n⟩)).size_exhausted ⟨k⟩ = decide (k > n) ∧
    (DataProviderBounds.mk oc none).size_exhausted ⟨k⟩ = false :=
  ⟨rfl, rfl, rfl, rfl⟩

/-- Claim C9: building from an existing `ElectionBounds` is a round-trip
identity, `ElectionBoundsBuilder::from(b).build() = b`. -/
theorem fromBounds_build_roundtrip (b : ElectionBounds) :
    (ElectionBoundsBuilder.fromBounds b).build = b := by
  obtain ⟨v, t⟩ := b
  rfl

/-- Claim C5: `desired_targets_checked` propagates a data-provider error
unchanged; a provided value is returned unchanged when at most `MaxWinners`
and otherwise rejected with the fixed reason string; concretely with
`MaxWinners = 5`, `4` gives `Ok(4)` and `6` gives the error. -/
theorem desired_targets_checked_spec (maxWinners d : Nat) (e : String) :
    desired_targets_checked maxWinners (.error e) = .error e ∧
    desired_targets_checked maxWinners (.ok d) =
      (if d ≤ maxWinners then .ok d
       else .error "desired_targets must not be greater than MaxWinners.") ∧
    desired_targets_checked 5 (.ok 4) = .ok 4 ∧
    desired_targets_checked 5 (.ok 6) =
      .error "desired_targets must not be greater than MaxWinners." :=
  ⟨rfl, rfl, rfl, rfl⟩

/-- Claim C2: each field of `a.max(b)` is `a`'s field clamped into
`[0, b's field or u32::MAX]` when present and `b`'s field otherwise; reading
`None` as unbounded, the result never exceeds the corresponding field of `a`
nor of `b`; `Some(50).max(Some(20))` gives `Some(20)` and
`None.max(Some(20))` gives `Some(20)` on the count field. -/
theorem max_clamps_and_only_tightens (a b : DataProviderBounds) :
    (a.max b).count =
      (match a.count with
       | some v => some (v.clamp CountBound.zero (b.count.getD ⟨u32MAX⟩))
       | none => b.count) ∧
    (a.max b).size =
      (match a.size with
       | some v => some (v.clamp SizeBound.zero (b.size.getD ⟨u32MAX⟩))
       | none => b.size) ∧
    count_le_opt (a.max b).count a.count = true ∧
    count_le_opt (a.max b).count b.count = true ∧
    size_le_opt (a.max b).size a.size = true ∧
    size_le_opt (a.max b).size b.size = true ∧
    (DataProviderBounds.mk (some ⟨50⟩) none).max (DataProviderBounds.mk (some ⟨20⟩) none) =
      DataProviderBounds.mk (some ⟨20⟩) none ∧
    (DataProviderBounds.mk none none).max (DataProviderBounds.mk (some ⟨20⟩) none) =
      DataProviderBounds.mk (some ⟨20⟩) none := by
  obtain ⟨ac, asz⟩ := a
  obtain ⟨bc, bsz⟩ := b
  refine ⟨rfl, rfl, ?_, ?_, ?_, ?_, by decide, by decide⟩ <;>
    cases ac <;> cases bc <;> cases asz <;> cases bsz <;>
      simp [DataProviderBounds.max, count_le_opt, size_le_opt, CountBound.clamp,
        SizeBound.clamp, CountBound.zero, SizeBound.zero, u32MAX]

/-- A failed target lookup anywhere in the distribution collapses the whole
collection to `none`. -/
lemma collectTargets_eq_none {AccountId TargetIndex P : Type}
    (target_index : AccountId → Option TargetIndex)
    (l : List (AccountId × P)) (tp : AccountId × P)
    (htp : tp ∈ l) (hmiss : target_index tp.1 = none) :
    collectTargets target_index l = none := by
  induction l with
  | nil => cases htp
  | cons q rest ih =>
      rcases List.mem_cons.mp htp with h | h
      · subst h
        simp [collectTargets, hmiss]
      · cases hq : target_index q.1 with
        | none => simp [collectTargets, hq]
        | some i => simp [collectTargets, hq, ih h]

/-- When every target lookup succeeds, the collection succeeds, preserves the
proportions verbatim and in order, and replaces each target by its index. -/
lemma collectTargets_eq_some {AccountId TargetIndex P : Type}
    (target_index : AccountId → Option TargetIndex)
    (l : List (AccountId × P))
    (h : ∀ tp ∈ l, (target_index tp.1).isSome = true) :
    ∃ ds, collectTargets target_index l = some ds ∧
      ds.map Prod.snd = l.map Prod.snd ∧
      List.Forall₂ (fun tp dp => target_index tp.1 = some dp.1) l ds := by
  induction l with
  | nil => exact ⟨[], rfl, rfl, List.Forall₂.nil⟩
  | cons tp rest ih =>
      obtain ⟨i, hi⟩ := Option.isSome_iff_exists.mp (h tp (List.mem_cons_self tp rest))
      obtain ⟨ds, hds, hsnd, hfa⟩ := ih fun q hq => h q (List.mem_cons_of_mem tp hq)
      refine ⟨(i, tp.2) :: ds, ?_, ?_, List.Forall₂.cons hi hfa⟩
      · simp [collectTargets, hi, hds]
      · simp [hsnd]

/-- Claim C3: if the voter lookup misses, or the lookup of any target in the
distribution misses, `IndexAssignment::new` returns the invalid-index error
and never a partially-built result. -/
theorem new_fails_with_invalid_index {AccountId VoterIndex TargetIndex P : Type}
    (assignment : Assignment AccountId P)
    (voter_index : AccountId → Option VoterIndex)
    (target_index : AccountId → Option TargetIndex)
    (h : voter_index assignment.who = none ∨
      ∃ tp ∈ assignment.distribution, target_index tp.1 = none) :
    IndexAssignment.new assignment voter_index target_index =
      .error Error.SolutionInvalidIndex := by
  rcases h with hv | ⟨tp, htp, hmiss⟩
  · simp [IndexAssignment.new, hv, or_invalid_index]
  · cases hv : voter_index assignment.who with
    | none => simp [IndexAssignment.new, hv, or_invalid_index]
    | some w =>
        simp [IndexAssignment.new, hv, or_invalid_index,
          collectTargets_eq_none target_index assignment.distribution tp htp hmiss]

/-- Claim C3 witness: a concrete assignment whose second target is unmapped is
rejected with the invalid-index error. -/
theorem new_fails_with_invalid_index_witness :
    @IndexAssignment.new Nat Nat Nat Nat
      ⟨7, [(1, 30), (2, 70)]⟩ (fun v => if v = 7 then some 0 else none)
      (fun t => if t = 1 then some 10 else none) =
      .error Error.SolutionInvalidIndex :=
  new_fails_with_invalid_index ⟨7, [(1, 30), (2, 70)]⟩
    (fun v => if v = 7 then some 0 else none)
    (fun t => if t = 1 then some 10 else none)
    (Or.inr ⟨(2, 70), by decide, by decide⟩)

/-- Claim C4: when the voter maps to `w` and every distribution target maps to
an index, `IndexAssignment::new` returns `Ok` with `who = w` and a
distribution of the same order in which each target is replaced by its index
and each proportion is carried over verbatim. -/
theorem new_ok_replaces_ids_preserving_proportions
    {AccountId VoterIndex TargetIndex P : Type}
    (assignment : Assignment AccountId P)
    (voter_index : AccountId → Option VoterIndex)
    (target_index : AccountId → Option TargetIndex) (w : VoterIndex)
    (hw : voter_index assignment.who = some w)
    (ht : ∀ tp ∈ assignment.distribution, (target_index tp.1).isSome = true) :
    ∃ ds, IndexAssignment.new assignment voter_index target_index =
        .ok { who := w, distribution := ds } ∧
      ds.map Prod.snd = assignment.distribution.map Prod.snd ∧
      List.Forall₂ (fun tp dp => target_index tp.1 = some dp.1)
        assignment.distribution ds := by
  obtain ⟨ds, hds, hsnd, hfa⟩ :=
    collectTargets_eq_some target_index assignment.distribution ht
  exact ⟨ds, by simp [IndexAssignment.new, hw, hds, or_invalid_index], hsnd, hfa⟩

/-- Claim C4 witness: a concrete two-target assignment converts to its index
form with both proportions intact. -/
theorem new_ok_replaces_ids_preserving_proportions_witness :
    ∃ ds, @IndexAssignment.new Nat Nat Nat Nat
        ⟨7, [(1, 30), (2, 70)]⟩ (fun v => if v = 7 then some 0 else none)
        (fun t => if t = 1 then some 10 else if t = 2 then some 11 else none) =
        .ok { who := 0, distribution := ds } ∧
      ds.map Prod.snd = [(1, 30), (2, 70)].map (@Prod.snd Nat Nat) ∧
      List.Forall₂
        (fun (tp : Nat × Nat) (dp : Nat × Nat) =>
          (if tp.1 = 1 then some 10 else if tp.1 = 2 then some 11 else none) = some dp.1)
        [(1, 30), (2, 70)] ds :=
  new_ok_replaces_ids_preserving_proportions ⟨7, [(1, 30), (2, 70)]⟩
    (fun v => if v = 7 then some 0 else none)
    (fun t => if t = 1 then some 10 else if t = 2 then some 11 else none) 0
    (by decide) (by decide)

/-- Claim C6: for a present id with score `s`, `on_increase(id, delta)` is
`on_update(id, s saturating-plus delta)` and `on_decrease(id, delta)` removes
the id when `s saturating-minus delta` is zero and updates otherwise; after
`on_insert(A, 10)` then `on_increase(A, 5)` the score of `A` is `15`, and
after `on_insert(A, 10)` then `on_decrease(A, 10)` the count is `0` and
`iter` excludes `A`. -/
theorem on_increase_on_decrease_spec (l : ListState) (id delta s : Nat)
    (h : get_score l id = .ok s) :
    on_increase l id delta = on_update l id (saturating_add s delta) ∧
    on_decrease l id delta =
      (if saturating_sub s delta = 0 then on_remove l id
       else on_update l id (saturating_sub s delta)) ∧
    get_score (applyOps [] [Op.insert 0 10, Op.increase 0 5]) 0 = .ok 15 ∧
    count (applyOps [] [Op.insert 0 10, Op.decrease 0 10]) = 0 ∧
    ¬ (0 ∈ iter (applyOps [] [Op.insert 0 10, Op.decrease 0 10])) :=
  ⟨by simp [on_increase, h], by simp [on_decrease, h], by rfl, by rfl, by decide⟩

/-- Claim C6 witness: the wrapper behaviour at the concrete one-member state
holding id `0` with score `10`. -/
theorem on_increase_on_decrease_spec_witness :
    on_increase [(0, 10)] 0 5 = on_update [(0, 10)] 0 (saturating_add 10 5) ∧
    on_decrease [(0, 10)] 0 5 =
      (if saturating_sub 10 5 = 0 then on_remove [(0, 10)] 0
       else on_update [(0, 10)] 0 (saturating_sub 10 5)) ∧
    get_score (applyOps [] [Op.insert 0 10, Op.increase 0 5]) 0 = .ok 15 ∧
    count (applyOps [] [Op.insert 0 10, Op.decrease 0 10]) = 0 ∧
    ¬ (0 ∈ iter (applyOps [] [Op.insert 0 10, Op.decrease 0 10])) :=
  on_increase_on_decrease_spec [(0, 10)] 0 5 10 rfl

/-- Claim C10: when `get_score` fails (id absent), `on_increase` and
`on_decrease` return that very error, and the state is unchanged. -/
theorem on_increase_on_decrease_propagate_get_score_error
    (l : ListState) (id delta : Nat) (e : String)
    (h : get_score l id = .error e) :
    on_increase l id delta = .error e ∧
    on_decrease l id delta = .error e ∧
    applyOp l (.increase id delta) = l ∧
    applyOp l (.decrease id delta) = l := by
  refine ⟨?_, ?_, ?_, ?_⟩ <;>
    simp [on_increase, on_decrease, applyOp, orSelf, h]

/-- Claim C10 witness: increasing or decreasing an id absent from the empty
list reports the missing-id error and leaves the state empty. -/
theorem on_increase_on_decrease_propagate_get_score_error_witness :
    on_increase [] 0 5 = .error "id not present in the list" ∧
    on_decrease [] 0 5 = .error "id not present in the list" ∧
    applyOp [] (.increase 0 5) = [] ∧
    applyOp [] (.decrease 0 5) = [] :=
  on_increase_on_decrease_propagate_get_score_error [] 0 5
    "id not present in the list" rfl

/-- Membership after a ranked insertion: every member was already present or
is the freshly inserted pair. -/
lemma mem_insertSorted {l : ListState} {id score : Nat} {p : Nat × Nat}
    (hp : p ∈ insertSorted l id score) : p ∈ l ∨ p = (id, score) := by
  induction l with
  | nil =>
      simp [insertSorted] at hp
      exact Or.inr hp
  | cons q rest ih =>
      simp only [insertSorted] at hp
      split at hp
      · rcases List.mem_cons.mp hp with h | h
        · exact Or.inr h
        · exact Or.inl h
      · rcases List.mem_cons.mp hp with h | h
        · exact Or.inl (List.mem_cons.mpr (Or.inl h))
        · rcases ih h with h' | h'
          · exact Or.inl (List.mem_cons.mpr (Or.inr h'))
          · exact Or.inr h'

/-- A successful `get_score` exhibits the member in the state. -/
lemma get_score_ok_mem {l : ListState} {id s : Nat}
    (h : get_score l id = .ok s) : (id, s) ∈ l := by
  unfold get_score at h
  cases hf : l.find? (fun p => p.1 == id) with
  | none => rw [hf] at h; cases h
  | some p =>
      rw [hf] at h
      obtain ⟨p1, p2⟩ := p
      have hmem := List.mem_of_find?_eq_some hf
      have hpred := List.find?_some hf
      have h1 : p1 = id := by simpa using hpred
      have h2 : p2 = s := by cases h; rfl
      rw [h1, h2] at hmem
      exact hmem

/-- Saturating addition keeps a nonzero score nonzero. -/
lemma saturating_add_ne_zero {s d : Nat} (hs : s ≠ 0) : saturating_add s d ≠ 0 := by
  have h1 : 0 < scoreMAX := by norm_num [scoreMAX]
  unfold saturating_add
  rw [Nat.min_def]
  split <;> omega

/-- A successful `on_insert` with a nonzero score preserves the
no-zero-score invariant. -/
lemma on_insert_ok_nonzero {l l' : ListState} {id score : Nat}
    (h : on_insert l id score = .ok l') (hs : score ≠ 0)
    (hl : ∀ p ∈ l, p.2 ≠ 0) : ∀ p ∈ l', p.2 ≠ 0 := by
  unfold on_insert at h
  split at h
  · cases h
  · cases h
    intro p hp
    rcases mem_insertSorted hp with hmem | heq
    · exact hl p hmem
    · rw [heq]; exact hs

/-- A successful `on_update` with a nonzero score preserves the
no-zero-score invariant. -/
lemma on_update_ok_nonzero {l l' : ListState} {id score : Nat}
    (h : on_update l id score = .ok l') (hs : score ≠ 0)
    (hl : ∀ p ∈ l, p.2 ≠ 0) : ∀ p ∈ l', p.2 ≠ 0 := by
  unfold on_update at h
  split at h
  · cases h
    intro p hp
    rcases mem_insertSorted hp with hmem | heq
    · exact hl p (List.mem_of_mem_filter hmem)
    · rw [heq]; exact hs
  · cases h

/-- A successful `on_remove` preserves the no-zero-score invariant. -/
lemma on_remove_ok_nonzero {l l' : ListState} {id : Nat}
    (h : on_remove l id = .ok l') (hl : ∀ p ∈ l, p.2 ≠ 0) :
    ∀ p ∈ l', p.2 ≠ 0 := by
  unfold on_remove at h
  split at h
  · cases h
    exact fun p hp => hl p (List.mem_of_mem_filter hp)
  · cases h

/-- A successful `on_increase` preserves the no-zero-score invariant. -/
lemma on_increase_ok_nonzero {l l' : ListState} {id d : Nat}
    (h : on_increase l id d = .ok l') (hl : ∀ p ∈ l, p.2 ≠ 0) :
    ∀ p ∈ l', p.2 ≠ 0 := by
  unfold on_increase at h
  cases hg : get_score l id with
  | error e => rw [hg] at h; cases h
  | ok s =>
      rw [hg] at h
      have hs : s ≠ 0 := hl (id, s) (get_score_ok_mem hg)
      exact on_update_ok_nonzero h (saturating_add_ne_zero hs) hl

/-- A successful `on_decrease` preserves the no-zero-score invariant: the
zero-score outcome is routed through removal. -/
lemma on_decrease_ok_nonzero {l l' : ListState} {id d : Nat}
    (h : on_decrease l id d = .ok l') (hl : ∀ p ∈ l, p.2 ≠ 0) :
    ∀ p ∈ l', p.2 ≠ 0 := by
  unfold on_decrease at h
  cases hg : get_score l id with
  | error e => rw [hg] at h; cases h
  | ok s =>
      rw [hg] at h
      have h' : (if saturating_sub s d = 0 then on_remove l id
          else on_update l id (saturating_sub s d)) = .ok l' := h
      split at h'
      · exact on_remove_ok_nonzero h' hl
      · next hne => exact on_update_ok_nonzero h' hne hl

/-- One good operation preserves the no-zero-score invariant (failed
operations leave the state untouched). -/
lemma applyOp_nonzero {l : ListState} {op : Op} (hop : goodOp op = true)
    (hl : ∀ p ∈ l, p.2 ≠ 0) : ∀ p ∈ applyOp l op, p.2 ≠ 0 := by
  cases op with
  | insert id score =>
      have hs : score ≠ 0 := by simpa [goodOp] using hop
      cases hE : on_insert l id score with
      | ok l' => simpa [applyOp, orSelf, hE] using on_insert_ok_nonzero hE hs hl
      | error e => simpa [applyOp, orSelf, hE] using hl
  | update id score =>
      have hs : score ≠ 0 := by simpa [goodOp] using hop
      cases hE : on_update l id score with
      | ok l' => simpa [applyOp, orSelf, hE] using on_update_ok_nonzero hE hs hl
      | error e => simpa [applyOp, orSelf, hE] using hl
  | increase id delta =>
      cases hE : on_increase l id delta with
      | ok l' => simpa [applyOp, orSelf, hE] using on_increase_ok_nonzero hE hl
      | error e => simpa [applyOp, orSelf, hE] using hl
  | decrease id delta =>
      cases hE : on_decrease l id delta with
      | ok l' => simpa [applyOp, orSelf, hE] using on_decrease_ok_nonzero hE hl
      | error e => simpa [applyOp, orSelf, hE] using hl
  | remove id =>
      cases hE : on_remove l id with
      | ok l' => simpa [applyOp, orSelf, hE] using on_remove_ok_nonzero hE hl
      | error e => simpa [applyOp, orSelf, hE] using hl

/-- A sequence of good operations preserves the no-zero-score invariant. -/
lemma applyOps_nonzero {ops : List Op} {l : ListState}
    (hops : ∀ op ∈ ops, goodOp op = true) (hl : ∀ p ∈ l, p.2 ≠ 0) :
    ∀ p ∈ applyOps l ops, p.2 ≠ 0 := by
  induction ops generalizing l with
  | nil => exact hl
  | cons op rest ih =>
      exact ih (fun o ho => hops o (List.mem_cons_of_mem op ho))
        (applyOp_nonzero (hops op (List.mem_cons_self op rest)) hl)

/-- Claim C7 counterexample: the claim quantifies over every operation
sequence, but inserting a member with score `0` retains a zero-score member
— only `on_decrease` removes at zero; `on_insert`/`on_update` accept a zero
score and keep the entry. -/
theorem zero_score_retained_counterexample :
    ¬ (∀ p ∈ applyOps [] [Op.insert 0 0], p.2 ≠ 0) := by decide

/-- Claim C7 (amended): after every sequence of operations in which each
`on_insert` and `on_update` supplies a nonzero score, no retained member has
a zero score — `on_decrease` removes rather than retains at zero, and
`on_increase` cannot drive a nonzero score to zero. -/
theorem zero_score_never_retained (ops : List Op)
    (h : ∀ op ∈ ops, goodOp op = true) :
    ∀ p ∈ applyOps [] ops, p.2 ≠ 0 :=
  applyOps_nonzero h (by simp)

/-- Claim C7 witness: the amended invariant at the concrete good sequence
insert-then-increase, whose resulting sole member carries score `15`. -/
theorem zero_score_never_retained_witness :
    (0, 15) ∈ applyOps [] [Op.insert 0 10, Op.increase 0 5] ∧ (15 : Nat) ≠ 0 :=
  ⟨by decide,
    zero_score_never_retained [Op.insert 0 10, Op.increase 0 5] (by decide)
      (0, 15) (by decide)⟩

end ElectionProviderSupport
